import Mathlib

/-!
Verification of the hyperliquid-fleet-execution engine
(`hyperliquid_top_gun.py` and collaborators).

The Python source is shallowly embedded: prices and sizes are `ℚ`,
SQLite rows are a `Signal` structure, the `signals` table is a
`List Signal`, gateway responses are explicit data, and fallible
operations return `Except String`.  `None` values of nullable columns
and API fields are `Option`.  The `notes` column, which the source only
ever appends to (`COALESCE(notes,'') || ' | ' || txt`) or overwrites
wholesale, is modelled as a list of note entries.
-/

namespace Fleet

/-! ## Python-style rounding (`round(x, d)`)

Python's `round` rounds half to even.  `pyRoundInt` is the integer
rounding, `pyRound d x` is `round(x, d)` with `d` possibly negative
(rounding to tens/hundreds), as used by `round_px`. -/

/-- Round a rational to the nearest integer, ties to even
(Python's `round`). -/
def pyRoundInt (x : ℚ) : ℤ :=
  if x - ⌊x⌋ = 1 / 2 then (if 2 ∣ ⌊x⌋ then ⌊x⌋ else ⌊x⌋ + 1) else round x

/-- Python's `round(x, d)`: round to `d` decimal places (`d` may be
negative, rounding to a multiple of `10^(-d)`). -/
def pyRound (d : ℤ) (x : ℚ) : ℚ :=
  (pyRoundInt (x * 10 ^ d) : ℚ) / 10 ^ d

/-! ## PrecisionEngine: `round_px` (source lines 71–98)

```
magnitude = math.floor(math.log10(abs(price)))
sig_figs_decimals = 5 - 1 - magnitude
max_decimals = 6 - sz_decimals
final_decimals = min(sig_figs_decimals, max_decimals)
return round(price, final_decimals)
```
(`math.floor ∘ math.log10` on a positive rational is `Int.log 10`; the
source's two `return round(price, final_decimals)` branches are
identical, so they collapse here.) -/

/-- `HyperLiquidTopGun.round_px`, parameterised by the instrument's
`szDecimals` value. -/
def round_px (sz_decimals : ℕ) (price : ℚ) : ℚ :=
  if price = 0 then 0
  else
    let magnitude : ℤ := Int.log 10 |price|
    let sig_figs_decimals : ℤ := 5 - 1 - magnitude
    let max_decimals : ℤ := 6 - (sz_decimals : ℤ)
    let final_decimals : ℤ := min sig_figs_decimals max_decimals
    pyRound final_decimals price

/-! ## API receipt parsing (source lines 100–143)

A Hyperliquid API receipt.  `statuses = none` models a payload missing
`response.data.statuses` (the `KeyError` branch). -/

inductive OrderStatus
  /-- `{'resting': {'oid': …}}` (the inner `oid` may be absent). -/
  | resting (oid : Option ℕ)
  /-- `{'filled': {'oid': …}}`. -/
  | filledS (oid : Option ℕ)
  /-- `{'error': msg}`. -/
  | errorS (msg : String)
  /-- any other status dictionary. -/
  | otherS
  deriving DecidableEq, Repr

structure ApiResult where
  status : String
  statuses : Option (List OrderStatus)
  deriving DecidableEq, Repr

/-- `_check_order_status`: parses an API receipt.  A `none` receipt is
success; `status == 'err'` or a first status carrying `'error'`
raises. -/
def check_order_status : Option ApiResult → Except String Unit
  | none => .ok ()
  | some r =>
    if r.status = "err" then .error "API Error"
    else
      match r.statuses with
      | none => .ok ()
      | some [] => .ok ()
      | some (s :: _) =>
        match s with
        | .errorS m => .error ("Order Rejected: " ++ m)
        | _ => .ok ()

/-- `_extract_order_id`: pulls the order id out of a receipt, `none` if
the order wasn't placed or the response is malformed. -/
def extract_order_id : Option ApiResult → Option ℕ
  | none => none
  | some r =>
    match r.statuses with
    | none => none
    | some [] => none
    | some (s :: _) =>
      match s with
      | .resting oid => oid
      | .filledS oid => oid
      | _ => none

/-! ## Data model: the `signals` table and gateway data -/

/-- One row of the `signals` table.  Nullable columns are `Option`;
`created_at` is a unix timestamp in seconds; `sl_moved_to_be` is the
breakeven-promotion flag (SQLite 0/1).  `notes`, only ever appended to
or overwritten by the engine, is a list of note entries. -/
structure Signal where
  id : ℕ
  bot_name : String
  symbol : String
  direction : String
  signal_type : String
  status : String
  entry_1 : Option ℚ
  stop_loss : Option ℚ
  target_1 : Option ℚ
  target_2 : Option ℚ
  target_3 : Option ℚ
  target_4 : Option ℚ
  target_5 : Option ℚ
  confidence_score : Option ℕ
  position_size_actual : Option ℚ
  order_id_entry : Option ℕ
  order_id_sl : Option ℕ
  order_id_tp1 : Option ℕ
  order_id_tp2 : Option ℕ
  order_id_tp3 : Option ℕ
  order_id_tp4 : Option ℕ
  order_id_tp5 : Option ℕ
  sl_moved_to_be : Bool
  be_sl_order_id : Option ℕ
  pnl_percent_actual : Option ℚ
  notes : List String
  created_at : ℤ
  deriving DecidableEq, Repr

/-- One entry of `info.user_fills(...)`. -/
structure Fill where
  coin : String
  oid : ℕ
  px : ℚ
  sz : ℚ
  time : ℤ
  dir : String
  closedPnl : ℚ
  deriving DecidableEq, Repr

/-- One entry of `user_state["assetPositions"]` (the inner
`position` dictionary). -/
structure AssetPos where
  coin : String
  szi : ℚ
  deriving DecidableEq, Repr

/-- One entry of `info.frontend_open_orders(...)`. -/
structure OpenOrder where
  coin : String
  oid : ℕ
  deriving DecidableEq, Repr

/-- `ticker.upper().replace("USDT", "").replace("PERP", "")`. -/
def cleanTicker (s : String) : String :=
  ((s.toUpper.replace "USDT" "").replace "PERP" "")

/-- Python's `'Close' in s` substring test. -/
def containsClose (s : String) : Bool :=
  2 ≤ (s.splitOn "Close").length

/-- `UPDATE signals SET … WHERE id = ?`. -/
def updateById (db : List Signal) (i : ℕ) (f : Signal → Signal) : List Signal :=
  db.map (fun r => if r.id = i then f r else r)

/-- Symbols with a live non-zero position
(`run_position_reconciliation`'s `open_tickers` set). -/
def openTickers (ps : List AssetPos) : List String :=
  ps.filterMap (fun p => if p.szi ≠ 0 then some p.coin else none)

/-! ## SignalDispatcher (`run_loop`, source lines 145–384)

The gateway is modelled as the data a single tick observes: the open
orders, the receipt returned by `market_close`, the account state, and
the receipt returned for each order placement. -/

inductive OrderKind
  /-- `{"limit": {"tif": "Gtc"}}`. -/
  | limitGtc
  /-- `{"trigger": {…, "tpsl": "sl"}}` (trigger price = limit price in
  every call the source makes). -/
  | triggerSl
  /-- `{"trigger": {…, "tpsl": "tp"}}`. -/
  | triggerTp
  deriving DecidableEq, Repr

/-- Arguments of one `self.exchange.order(...)` call. -/
structure PlaceReq where
  coin : String
  is_buy : Bool
  sz : ℚ
  limit_px : ℚ
  kind : OrderKind
  reduce_only : Bool
  deriving DecidableEq, Repr

/-- A gateway (exchange) call made during a tick. -/
inductive GCall
  | cancel (coin : String) (oid : ℕ)
  | marketClose (coin : String)
  | place (req : PlaceReq)
  deriving DecidableEq, Repr

/-- Is this gateway call an order placement? -/
def GCall.isPlace : GCall → Bool
  | .place _ => true
  | _ => false

/-- What the gateway returns to one dispatcher tick. -/
structure TickGw where
  open_orders : List OpenOrder
  market_close : String → Option ApiResult
  positions : List AssetPos
  equity : ℚ
  place : PlaceReq → Option ApiResult

/-- Per-identity configuration (constructor arguments / env fallbacks). -/
structure BotConfig where
  risk_per_trade : ℚ
  max_leverage : ℚ
  default_sl_dist : ℚ
  max_concurrent_positions : ℕ
  /-- `get_token_sz_decimals` (the metadata map with its default 3). -/
  szDec : String → ℕ

/-- Share of the total size assigned to the take-profit order at
position `idx` (0-based) among `n` targets: every target gets
`round(size / n, d)` except the last, which takes
`round(size − round(size / n, d)·(n−1), d)` (source lines 312–325). -/
def tp_share (size : ℚ) (d : ℕ) (n : ℕ) (idx : ℕ) : ℚ :=
  if idx = n - 1 then pyRound d (size - pyRound d (size / n) * (n - 1))
  else pyRound d (size / n)

/-- The list of all `n` take-profit partial sizes. -/
def split_sizes (size : ℚ) (d : ℕ) (n : ℕ) : List ℚ :=
  (List.range n).map (tp_share size d n)

/-- Non-null targets of a row, with their target numbers
(`targets = [(num, price) … if price is not None]`). -/
def targetsOf (r : Signal) : List (ℕ × ℚ) :=
  [(1, r.target_1), (2, r.target_2), (3, r.target_3), (4, r.target_4),
    (5, r.target_5)].filterMap
    (fun p => match p.2 with | some t => some (p.1, t) | none => none)

/-- The `tp_oids` dictionary: later insertions shadow earlier ones,
absent keys give `none`. -/
def tpFold (l : List (ℕ × Option ℕ)) : ℕ → Option ℕ :=
  l.foldl (fun acc p => fun k => if k = p.1 then p.2 else acc k) (fun _ => none)

/-- The take-profit placement loop (source lines 316–347): skip shares
that round to ≤ 0; a rejected placement is logged and skipped without
recording an order id; the remaining targets are still placed. -/
def placeTps (gw : TickGw) (ticker : String) (is_buy : Bool) (d : ℕ)
    (size : ℚ) (n : ℕ) : List (ℕ × ℚ) → ℕ → List (ℕ × Option ℕ) × List GCall
  | [], _ => ([], [])
  | (num, tp) :: rest, idx =>
    if tp_share size d n idx ≤ 0 then
      placeTps gw ticker is_buy d size n rest (idx + 1)
    else
      match check_order_status (gw.place
          ⟨ticker, !is_buy, tp_share size d n idx, round_px d tp,
            .triggerTp, true⟩) with
      | .error _ =>
        ((placeTps gw ticker is_buy d size n rest (idx + 1)).1,
          .place ⟨ticker, !is_buy, tp_share size d n idx, round_px d tp,
            .triggerTp, true⟩ ::
            (placeTps gw ticker is_buy d size n rest (idx + 1)).2)
      | .ok _ =>
        ((num, extract_order_id (gw.place
            ⟨ticker, !is_buy, tp_share size d n idx, round_px d tp,
              .triggerTp, true⟩)) ::
            (placeTps gw ticker is_buy d size n rest (idx + 1)).1,
          .place ⟨ticker, !is_buy, tp_share size d n idx, round_px d tp,
            .triggerTp, true⟩ ::
            (placeTps gw ticker is_buy d size n rest (idx + 1)).2)

/-- `is_buy = (direction.lower() in ["long", "bullish"])`. -/
def isBuyDir (d : String) : Bool :=
  d.toLower == "long" || d.toLower == "bullish"

/-- `len([p for p in open_positions if …szi… != 0])`. -/
def posCount (gw : TickGw) : ℕ :=
  (gw.positions.filter (fun p => p.szi != 0)).length

/-- The synthesized safety stop `entry ± entry*default_sl_dist`. -/
def synthSl (cfg : BotConfig) (is_buy : Bool) (e : ℚ) : ℚ :=
  if is_buy then e - e * cfg.default_sl_dist else e + e * cfg.default_sl_dist

/-- The stop price used for sizing: the row's own stop loss, or the
synthesized one when the column is `NULL` or 0 (`if not sl:`). -/
def stopRaw (cfg : BotConfig) (row : Signal) (e : ℚ) : ℚ :=
  match row.stop_loss with
  | some s => if s = 0 then synthSl cfg (isBuyDir row.direction) e else s
  | none => synthSl cfg (isBuyDir row.direction) e

/-- Risk amount: confidence score 1–5 maps to 1%–5% of equity, else the
configured `risk_per_trade` fraction (`if confidence_score and
1 <= confidence_score <= 5:`; a score of 0 is falsy and also falls
through). -/
def riskAmt (cfg : BotConfig) (row : Signal) (equity : ℚ) : ℚ :=
  match row.confidence_score with
  | some cs =>
    if 1 ≤ cs ∧ cs ≤ 5 then equity * ((cs : ℚ) / 100)
    else equity * cfg.risk_per_trade
  | none => equity * cfg.risk_per_trade

/-- `size_coin = risk_amt / price_diff`. -/
def rawSize (cfg : BotConfig) (gw : TickGw) (row : Signal) (e : ℚ) : ℚ :=
  riskAmt cfg row gw.equity / |e - stopRaw cfg row e|

/-- The leverage cap: shrink to `equity*max_leverage/entry` when the
notional exceeds `equity*max_leverage`. -/
def cappedSize (cfg : BotConfig) (gw : TickGw) (row : Signal) (e : ℚ) : ℚ :=
  if gw.equity * cfg.max_leverage < rawSize cfg gw row e * e then
    gw.equity * cfg.max_leverage / e
  else rawSize cfg gw row e

/-- The realized size: the capped size rounded to the instrument's size
decimals. -/
def sizeRounded (cfg : BotConfig) (gw : TickGw) (row : Signal) (e : ℚ) : ℚ :=
  pyRound (cfg.szDec (cleanTicker row.symbol)) (cappedSize cfg gw row e)

/-- Result of processing one pending entry row. -/
inductive EntryOutcome
  /-- an exception was raised: the row is marked `failed` with the
  message in `notes`. -/
  | failedO (msg : String)
  /-- orders were placed: the row is marked `filled` and the realized
  size and all order ids are persisted. -/
  | filledO (size : ℚ) (entry_oid sl_oid : Option ℕ) (tp_oids : ℕ → Option ℕ)

/-- Entry processing (source lines 225–378): validation, risk sizing,
leverage cap, precision rounding, then placement of the entry limit
order, the stop trigger (rejection swallowed), and the take-profit
triggers. -/
def processEntry (cfg : BotConfig) (gw : TickGw) (row : Signal) :
    EntryOutcome × List GCall :=
  let ticker := cleanTicker row.symbol
  match row.entry_1 with
  | none => (.failedO "Signal missing Entry Price", [])
  | some e =>
    -- `if not entry:` is also true for an entry price of exactly 0
    if e = 0 then (.failedO "Signal missing Entry Price", [])
    else
      let is_buy := isBuyDir row.direction
      if cfg.max_concurrent_positions ≤ posCount gw then
        (.failedO "Max concurrent positions reached", [])
      else
        let stop_raw := stopRaw cfg row e
        if |e - stop_raw| = 0 then (.failedO "Invalid SL (Price == SL)", [])
        else
          let d := cfg.szDec ticker
          let size := sizeRounded cfg gw row e
          let entry_px := round_px d e
          let stop_px := round_px d stop_raw
          if size ≤ 0 then (.failedO "Calculated size is 0 (Risk too small).", [])
          else
            let req_entry : PlaceReq := ⟨ticker, is_buy, size, entry_px, .limitGtc, false⟩
            let res_entry := gw.place req_entry
            match check_order_status res_entry with
            | .error m => (.failedO m, [.place req_entry])
            | .ok _ =>
              let entry_oid := extract_order_id res_entry
              let req_sl : PlaceReq := ⟨ticker, !is_buy, size, stop_px, .triggerSl, true⟩
              let res_sl := gw.place req_sl
              -- `try: check(result_sl) except: pass` — rejection swallowed
              let sl_oid := extract_order_id res_sl
              let targets := targetsOf row
              let tpRes := placeTps gw ticker is_buy d size targets.length targets 0
              (.filledO size entry_oid sl_oid (tpFold tpRes.1),
                .place req_entry :: .place req_sl :: tpRes.2)

/-- Result of processing one pending exit row. -/
inductive ExitOutcome
  | executedO
  | failedX (msg : String)
  deriving DecidableEq, Repr

/-- Exit processing (source lines 165–211): cancel every open order on
the symbol, market-close (a `None` result means no position and is not
an error), then mark `executed`, or `failed` on an error receipt. -/
def exitCalls (gw : TickGw) (ticker : String) : List GCall :=
  ((gw.open_orders.filter (fun o => o.coin == ticker)).map
    (fun o => GCall.cancel ticker o.oid)) ++ [GCall.marketClose ticker]

def processExit (gw : TickGw) (ticker : String) : ExitOutcome × List GCall :=
  match check_order_status (gw.market_close ticker) with
  | .error m => (.failedX m, exitCalls gw ticker)
  | .ok _ => (.executedO, exitCalls gw ticker)

/-- The oldest `pending` `exit` row for the identity
(`ORDER BY created_at ASC LIMIT 1`). -/
def oldestPendingExit (bot : String) (db : List Signal) : Option Signal :=
  (db.filter (fun r =>
    r.bot_name == bot && r.status == "pending" && r.signal_type == "exit")).argmin
    Signal.created_at

/-- The oldest `pending` `entry` row for the identity. -/
def oldestPendingEntry (bot : String) (db : List Signal) : Option Signal :=
  (db.filter (fun r =>
    r.bot_name == bot && r.status == "pending" && r.signal_type == "entry")).argmin
    Signal.created_at

/-- One iteration of the dispatch loop body: exits take priority; an
entry row is considered only when no pending exit row exists.  Returns
the updated table and the gateway calls made. -/
def tickCore (cfg : BotConfig) (bot : String) (gw : TickGw) (db : List Signal) :
    List Signal × List GCall :=
  match oldestPendingExit bot db with
  | some ex =>
    match processExit gw (cleanTicker ex.symbol) with
    | (.executedO, calls) =>
      (updateById db ex.id (fun r => { r with status := "executed" }), calls)
    | (.failedX m, calls) =>
      (updateById db ex.id (fun r => { r with status := "failed", notes := [m] }), calls)
  | none =>
    match oldestPendingEntry bot db with
    | none => (db, [])
    | some row =>
      match processEntry cfg gw row with
      | (.failedO m, calls) =>
        (updateById db row.id (fun r => { r with status := "failed", notes := [m] }), calls)
      | (.filledO sz eo so tps, calls) =>
        (updateById db row.id (fun r =>
          { r with status := "filled", position_size_actual := some sz,
                   order_id_entry := eo, order_id_sl := so,
                   order_id_tp1 := tps 1, order_id_tp2 := tps 2,
                   order_id_tp3 := tps 3, order_id_tp4 := tps 4,
                   order_id_tp5 := tps 5 }), calls)

/-! ## Admin gate

The `bot_controls` command log is written by
`admin_controls.send_db_command` (an `INSERT` of `(bot_id, command)`),
and the dispatcher-side reader is exercised by
`test/test_controls.py` (`bot.check_controls(conn)` / `bot.paused`),
but `check_controls` itself is absent from `src/`. -/

/-- One row of the append-only `bot_controls` table. -/
structure AdminCommand where
  bot_id : String
  command : String
  deriving DecidableEq, Repr

/-- Modelled from the spec: `HyperLiquidTopGun.check_controls` is
missing from `src/` (only its test and the command writer exist); per
the spec the dispatcher reads only the most recent command for its
identity from the append-only log. -/
def latestCommand (bot : String) (log : List AdminCommand) : Option String :=
  ((log.filter (fun a => a.bot_id == bot)).getLast?).map AdminCommand.command

/-- Modelled from the spec: the dispatcher's admin gate — if the latest
command for the identity is `PAUSE`, skip the tick entirely (no row is
claimed, nothing processed); otherwise run the normal tick body. -/
def dispatchTick (cfg : BotConfig) (bot : String) (log : List AdminCommand)
    (gw : TickGw) (db : List Signal) : List Signal × List GCall :=
  if latestCommand bot log = some "PAUSE" then (db, [])
  else tickCore cfg bot gw db

/-! ## FillMonitor: fill attribution (`_process_fill`, lines 638–659)

`SELECT … WHERE bot_name = ? AND (order_id_tp1 = ? OR … OR
order_id_tp5 = ?) AND status = 'filled' AND datetime(created_at) >
datetime('now', '-30 days')`.  `now` is the current unix time in
seconds; 30 days = 2592000 seconds. -/

/-- Does the fill's order id match one of the row's take-profit ids? -/
def tpOidMatch (oid : ℕ) (r : Signal) : Bool :=
  r.order_id_tp1 == some oid || r.order_id_tp2 == some oid ||
  r.order_id_tp3 == some oid || r.order_id_tp4 == some oid ||
  r.order_id_tp5 == some oid

/-- The signal row `_process_fill` attributes a fill's order id to:
same identity, a matching take-profit order id, status `filled`, and
created within the last 30 days. -/
def matchFillRow (bot : String) (oid : ℕ) (now : ℤ) (db : List Signal) :
    Option Signal :=
  db.find? (fun r =>
    r.bot_name == bot && tpOidMatch oid r && r.status == "filled" &&
      decide (now - 30 * 86400 < r.created_at))

/-! ## FillMonitor: PnL tracking (`_track_position_closure`, 797–885) -/

/-- The most recent `filled` `entry` row for a symbol/identity
(`ORDER BY created_at DESC LIMIT 1`). -/
def mostRecentFilledEntry (bot sym : String) (db : List Signal) : Option Signal :=
  (db.filter (fun r =>
    r.bot_name == bot && r.symbol == sym && r.signal_type == "entry" &&
      r.status == "filled")).argmax Signal.created_at

/-- The earliest `executed`/`no_op` `exit` row for the symbol created
after time `t` (`ORDER BY created_at ASC LIMIT 1`). -/
def earliestExitAfter (bot sym : String) (t : ℤ) (db : List Signal) :
    Option Signal :=
  (db.filter (fun r =>
    r.bot_name == bot && r.symbol == sym && r.signal_type == "exit" &&
      (r.status == "executed" || r.status == "no_op") &&
      decide (t < r.created_at))).argmin Signal.created_at

/-- The entry-row update: record the actual PnL percent and append the
note. -/
def recordEntryPnl (v : ℚ) (r : Signal) : Signal :=
  { r with pnl_percent_actual := some v,
           notes := r.notes ++ ["Actual PnL recorded"] }

/-- The exit-row update: propagate the same PnL percent. -/
def setExitPnl (v : ℚ) (r : Signal) : Signal :=
  { r with pnl_percent_actual := some v }

/-- `_track_position_closure`: on a closing fill, compute the actual
PnL percent against the most recent filled entry row for the symbol,
record it there, and propagate it to the temporally next
`executed`/`no_op` exit row if one exists.  A row with a `NULL` entry
price or size makes `float(...)` raise, which the function's own
`except` swallows, leaving the table unchanged. -/
def track_position_closure (bot ticker : String) (fill : Fill)
    (db : List Signal) : List Signal :=
  if fill.closedPnl = 0 ∨ fill.sz = 0 then db
  else
    match mostRecentFilledEntry bot ticker db with
    | none => db
    | some entryRow =>
      match entryRow.entry_1, entryRow.position_size_actual with
      | some ep, some ps =>
        let position_value := ep * ps
        let pnl_percent : ℚ :=
          if 0 < position_value then fill.closedPnl / position_value * 100 else 0
        let db1 := updateById db entryRow.id (recordEntryPnl pnl_percent)
        match earliestExitAfter bot ticker entryRow.created_at db1 with
        | some exitRow => updateById db1 exitRow.id (setExitPnl pnl_percent)
        | none => db1
      | _, _ => db

/-! ## PositionReconciler: ghost healing (`run_position_reconciliation`
907–970 and `_get_pnl_from_fills` 984–1016) -/

/-- The scan inside `_get_pnl_from_fills`: walk the most recent fills
newest-first and return PnL data from the first closing fill for the
ticker with non-zero closed PnL (and a positive position value, else
the loop never returns). -/
def pnlScan (ticker : String) (position_value : ℚ) :
    List Fill → Option (ℚ × ℚ × ℚ)
  | [] => none
  | f :: rest =>
    if f.coin == ticker && containsClose f.dir && f.closedPnl != 0 &&
        decide (0 < position_value) then
      some (f.closedPnl / position_value * 100, f.closedPnl, f.px)
    else pnlScan ticker position_value rest

/-- `_get_pnl_from_fills`: look at the last 100 fills, newest first
(`reversed(fills[-100:])`).  A `NULL` entry price or size raises inside
the `try` and yields `None`. -/
def get_pnl_from_fills (ticker : String) (entry_price position_size : Option ℚ)
    (fills : List Fill) : Option (ℚ × ℚ × ℚ) :=
  match entry_price, position_size with
  | some ep, some ps =>
    pnlScan ticker (ep * ps) (fills.drop (fills.length - 100)).reverse
  | _, _ => none

/-- Is this row one the store believes is an open position for the
identity but whose symbol has no live non-zero position? -/
def isGhost (bot : String) (live : List String) (r : Signal) : Bool :=
  r.bot_name == bot && r.signal_type == "entry" && r.status == "filled" &&
    !(live.contains (cleanTicker r.symbol))

/-- The per-row update of one reconciliation pass: a ghost row is set
to `closed`, with the recovered PnL recorded when fill history yields
one, else with a note that PnL is unavailable. -/
def ghostHeal (bot : String) (live : List String) (fills : List Fill)
    (r : Signal) : Signal :=
  if isGhost bot live r then
    match get_pnl_from_fills (cleanTicker r.symbol) r.entry_1
        r.position_size_actual fills with
    | some (pnl_percent, _, _) =>
      { r with status := "closed", pnl_percent_actual := some pnl_percent,
               notes := r.notes ++ ["Auto-closed by reconciliation"] }
    | none =>
      { r with status := "closed",
               notes := r.notes ++ ["Auto-closed by reconciliation (PnL unavailable)"] }
  else r

/-- The ghost-position healing stage of one
`run_position_reconciliation` pass (lines 907–970).  The subsequent
fallback breakeven stage only touches rows still in status `filled`,
so it never alters a healed row. -/
def reconcileGhosts (bot : String) (db : List Signal)
    (positions : List AssetPos) (fills : List Fill) : List Signal :=
  db.map (ghostHeal bot (openTickers positions) fills)

/-! ## PositionReconciler: missed-breakeven fallback
(`_check_missed_breakeven`, lines 1018–1076) -/

/-- The rows `_check_missed_breakeven` selects: status `filled`,
breakeven flag still 0, and a recorded TP1 order id.  NOTE: unlike
`_process_fill`'s lookup, this query has no `created_at` recency
bound. -/
def missedBeRows (bot : String) (db : List Signal) : List Signal :=
  db.filter (fun r =>
    r.bot_name == bot && r.status == "filled" && r.sl_moved_to_be == false &&
      r.order_id_tp1.isSome)

/-- The signal ids for which `_check_missed_breakeven` invokes
`_move_sl_to_breakeven`: selected rows whose TP1 order id appears in
the current fill history's order-id set. -/
def check_missed_breakeven (bot : String) (db : List Signal)
    (fills : List Fill) : List ℕ :=
  (missedBeRows bot db).filterMap (fun r =>
    match r.order_id_tp1 with
    | some oid => if (fills.map Fill.oid).contains oid then some r.id else none
    | none => none)

/-! ## BreakevenController (`_move_sl_to_breakeven`, lines 693–795)

Sequential embedding of one invocation.  The environment fixes what the
exchange and the store do during this invocation: whether the position
still exists, the receipt for the new stop placement, and whether
persisting the new stop id raises. -/

structure BeEnv where
  /-- the ticker has a live position with `szi ≠ 0`. -/
  positionExists : Bool
  /-- receipt of `exchange.order(...)` for the breakeven stop. -/
  placeRes : Option ApiResult
  /-- the `UPDATE … SET be_sl_order_id = ?` raises. -/
  persistFails : Bool
  deriving DecidableEq, Repr

/-- `num_targets`: how many of the five target columns are non-null. -/
def countTargets (r : Signal) : ℕ :=
  [r.target_1, r.target_2, r.target_3, r.target_4, r.target_5].countP Option.isSome

/-- The `except` handler's rollback (lines 783–795): reset the
breakeven flag and record the error. -/
def beRollback (msg : String) (r1 : Signal) : Signal :=
  { r1 with sl_moved_to_be := false, notes := r1.notes ++ ["BE SL failed: " ++ msg] }

/-- `_move_sl_to_breakeven`: atomic claim of the breakeven flag, then —
only for the claim winner — position check, old-stop cancel (failure
swallowed), new stop placement at the rounded entry price, and
persistence of the new stop order id.  A raised exception after the
claim rolls the flag back; a vanished position returns early without
rollback.  A `NULL` size raises before the cancel, a `NULL` entry price
raises after it, zero targets raise a division error. -/
def move_sl_to_breakeven (env : BeEnv) (d : ℕ) (ticker : String)
    (row : Signal) : Signal × List GCall :=
  if row.sl_moved_to_be then (row, [])
  else
    let r1 := { row with sl_moved_to_be := true,
                         notes := row.notes ++ ["BE SL in progress"] }
    if !env.positionExists then (r1, [])
    else
      match row.position_size_actual with
      | none => (beRollback "unsupported operand type" r1, [])
      | some ps =>
        let n := countTargets row
        if n = 0 then (beRollback "division by zero" r1, [])
        else
          let remaining := pyRound d (ps * ((n : ℚ) - 1) / (n : ℚ))
          let cancelCalls : List GCall :=
            match row.order_id_sl with
            | some o => [.cancel ticker o]
            | none => []
          match row.entry_1 with
          | none => (beRollback "float() argument must not be None" r1, cancelCalls)
          | some ep =>
            let be_px := round_px d ep
            let is_long := row.direction.toLower == "long" ||
              row.direction.toLower == "bullish"
            let req : PlaceReq := ⟨ticker, !is_long, remaining, be_px, .triggerSl, true⟩
            let calls := cancelCalls ++ [.place req]
            match check_order_status env.placeRes with
            | .error m => (beRollback m r1, calls)
            | .ok _ =>
              let be_oid := extract_order_id env.placeRes
              if env.persistFails then (beRollback "database error" r1, calls)
              else
                ({ r1 with be_sl_order_id := be_oid,
                           notes := r1.notes ++ ["BE SL triggered after TP1"] },
                  calls)

/-! ## Breakeven race: two concurrent invocations

Step-relation model of `_move_sl_to_breakeven` invoked concurrently by
FillMonitor (thread `false`) and PositionReconciler (thread `true`) for
the same signal row.  The shared store state is the row's breakeven
flag and breakeven order id; the atomic unit is one SQLite statement
(each followed by its commit) or one gateway call, matching the
source's commit points.  `pFail t` says invocation `t`'s new-stop
placement receipt raises in `_check_order_status`; `sFail t` says its
persisting `UPDATE` raises; either failure runs the except-handler
rollback (source lines 783–795), which resets the flag and so reopens
the conditional claim.

Program counters: 0 = about to issue the atomic conditional claim,
1 = about to check the position, 2 = about to cancel the old stop,
3 = about to place the new stop, 4 = about to run the rollback `UPDATE`
(reset the flag), 5 = about to persist the new stop id,
6 = returned. -/

inductive BeGw
  | cancelOld
  | placeNew
  deriving DecidableEq, Repr

structure BeSys where
  /-- the row's `sl_moved_to_be` flag in the store. -/
  flag : Bool
  /-- which invocation persisted the breakeven order id, if any. -/
  beOwner : Option Bool
  /-- gateway calls so far, tagged by calling invocation. -/
  calls : List (Bool × BeGw)
  pcF : ℕ
  pcR : ℕ
  /-- the FillMonitor invocation's conditional claim affected one row. -/
  wonF : Bool
  wonR : Bool
  deriving DecidableEq, Repr

def BeSys.pc (s : BeSys) (t : Bool) : ℕ := if t then s.pcR else s.pcF

def BeSys.won (s : BeSys) (t : Bool) : Bool := if t then s.wonR else s.wonF

def BeSys.setPc (s : BeSys) (t : Bool) (v : ℕ) : BeSys :=
  if t then { s with pcR := v } else { s with pcF := v }

def BeSys.setWon (s : BeSys) (t : Bool) : BeSys :=
  if t then { s with wonR := true } else { s with wonF := true }

/-- One atomic step of invocation `t`.  At pc 0 the conditional update
`SET sl_moved_to_be = 1 WHERE … AND sl_moved_to_be = 0` either affects
zero rows (flag already true: return immediately) or claims the row.
At pc 3 the placement call is made and its receipt checked: a raising
receipt diverts to the rollback step.  The rollback step (pc 4) resets
the flag, reopening the claim.  At pc 5 a failing persist also diverts
to the rollback step, otherwise the breakeven order id is recorded. -/
def beStep (posExists : Bool) (pFail sFail : Bool → Bool) (t : Bool)
    (s : BeSys) : BeSys :=
  if s.pc t = 0 then
    if s.flag then s.setPc t 6
    else (({ s with flag := true }).setWon t).setPc t 1
  else if s.pc t = 1 then
    if posExists then s.setPc t 2 else s.setPc t 6
  else if s.pc t = 2 then
    ({ s with calls := s.calls ++ [(t, BeGw.cancelOld)] }).setPc t 3
  else if s.pc t = 3 then
    ({ s with calls := s.calls ++ [(t, BeGw.placeNew)] }).setPc t
      (if pFail t then 4 else 5)
  else if s.pc t = 4 then
    ({ s with flag := false }).setPc t 6
  else if s.pc t = 5 then
    if sFail t then s.setPc t 4
    else ({ s with beOwner := some t }).setPc t 6
  else s

/-- Run the two invocations under an arbitrary interleaving: the
schedule lists which invocation performs its next atomic step. -/
def beRun (posExists : Bool) (pFail sFail : Bool → Bool)
    (sched : List Bool) (s : BeSys) : BeSys :=
  sched.foldl (fun s t => beStep posExists pFail sFail t s) s

/-- Initial state: breakeven flag false, both invocations about to
issue their claim. -/
def beInit : BeSys := ⟨false, none, [], 0, 0, false, false⟩

/-- Reachability invariant of the two-invocation system for runs in
which no promotion fails (no step ever reaches the rollback). -/
def BeInv (s : BeSys) : Prop :=
  ¬(s.wonF = true ∧ s.wonR = true) ∧
  (s.flag = false → s.pcF = 0 ∧ s.pcR = 0 ∧ s.wonF = false ∧ s.wonR = false ∧
    s.calls = [] ∧ s.beOwner = none) ∧
  (s.flag = true → s.wonF = true ∨ s.wonR = true) ∧
  (s.wonF = false → (s.pcF = 0 ∨ s.pcF = 6) ∧
    (∀ c ∈ s.calls, c.1 = true) ∧ s.beOwner ≠ some false) ∧
  (s.wonR = false → (s.pcR = 0 ∨ s.pcR = 6) ∧
    (∀ c ∈ s.calls, c.1 = false) ∧ s.beOwner ≠ some true) ∧
  s.pcF ≠ 4 ∧ s.pcR ≠ 4

/-! ## Shared concrete fixtures for witnesses -/

/-- A template row; witnesses adjust individual fields. -/
def baseRow : Signal :=
  { id := 1, bot_name := "AITA Hyperliquid", symbol := "ETH",
    direction := "long", signal_type := "entry", status := "filled",
    entry_1 := some 2000, stop_loss := some 1900,
    target_1 := some 2100, target_2 := none, target_3 := none,
    target_4 := none, target_5 := none,
    confidence_score := some 1, position_size_actual := some 1,
    order_id_entry := none, order_id_sl := none,
    order_id_tp1 := none, order_id_tp2 := none, order_id_tp3 := none,
    order_id_tp4 := none, order_id_tp5 := none,
    sl_moved_to_be := false, be_sl_order_id := none,
    pnl_percent_actual := none, notes := [], created_at := 0 }

/-- An `executed` exit row for the same symbol, created after
`baseRow`. -/
def exitRowFx : Signal :=
  { baseRow with
    id := 2
    signal_type := "exit"
    status := "executed"
    created_at := 200 }

/-- A pending exit row. -/
def pendingExitFx : Signal :=
  { baseRow with
    signal_type := "exit"
    status := "pending" }

/-- The template row as a pending entry signal. -/
def pendingEntryFx : Signal := { baseRow with status := "pending" }

/-- A closing fill with non-zero realized PnL. -/
def closeFillFx : Fill :=
  ⟨"ETH", 555, 2100, 1, 0, "Close Long", 50⟩

/-- A gateway that answers every query with nothing: no open orders, no
positions, `None` for every placement and close. -/
def nullGw : TickGw :=
  { open_orders := [], market_close := fun _ => none, positions := [],
    equity := 1000, place := fun _ => none }

/-- A plain per-identity configuration. -/
def baseCfg : BotConfig :=
  { risk_per_trade := 1/100, max_leverage := 5, default_sl_dist := 5/100,
    max_concurrent_positions := 3, szDec := fun _ => 3 }

/-! # Theorems for the claims -/

/-! ## Helper lemmas -/

theorem pyRoundInt_intCast (k : ℤ) : pyRoundInt (k : ℚ) = k := by
  unfold pyRoundInt
  rw [Int.floor_intCast]
  have h : (k : ℚ) - k = 0 := by ring
  rw [h]
  norm_num

/-- `round(x, d)` is the identity on rationals that already have at most
`d` decimal places. -/
theorem pyRound_eq_self {d : ℤ} {x : ℚ} (h : ∃ k : ℤ, x = (k : ℚ) / 10 ^ d) :
    pyRound d x = x := by
  obtain ⟨k, rfl⟩ := h
  have h10 : (10 : ℚ) ^ d ≠ 0 := zpow_ne_zero _ (by norm_num)
  unfold pyRound
  rw [div_mul_cancel₀ _ h10, pyRoundInt_intCast]

/-- The output of `round(x, d)` always has at most `d` decimal places. -/
theorem pyRound_den (d : ℤ) (x : ℚ) : ∃ k : ℤ, pyRound d x = (k : ℚ) / 10 ^ d :=
  ⟨pyRoundInt (x * 10 ^ d), rfl⟩

/-- Compute `Int.log 10` from an explicit bracketing by powers of 10. -/
theorem intLog10_eq {q : ℚ} {m : ℤ} (hq : 0 < q)
    (h1 : (10 : ℚ) ^ m ≤ q) (h2 : q < (10 : ℚ) ^ (m + 1)) :
    Int.log 10 q = m := by
  have hb : 1 < 10 := by norm_num
  have ha := (Int.zpow_le_iff_le_log hb hq).1 (by exact_mod_cast h1)
  have hc := (Int.lt_zpow_iff_log_lt hb hq).1 (by exact_mod_cast h2)
  omega

theorem updateById_mem {db : List Signal} {r : Signal} (h : r ∈ db)
    (i : ℕ) (f : Signal → Signal) (hne : r.id ≠ i) :
    r ∈ updateById db i f := by
  have heq : (if r.id = i then f r else r) = r := if_neg hne
  unfold updateById
  rw [List.mem_map]
  exact ⟨r, h, heq⟩

theorem beInv_init : BeInv beInit := by
  refine ⟨by simp [beInit], ?_, by simp [beInit], ?_, ?_, by simp [beInit],
    by simp [beInit]⟩ <;> simp [beInit]

theorem beInv_step (posExists : Bool) (pFail sFail : Bool → Bool) (t : Bool)
    (hp : pFail t = false) (hs : sFail t = false) {s : BeSys} (h : BeInv s) :
    BeInv (beStep posExists pFail sFail t s) := by
  obtain ⟨flag, owner, calls, pcF, pcR, wonF, wonR⟩ := s
  obtain ⟨h1, h2, h3, h4, h5, h6, h7⟩ := h
  cases t
  · -- FillMonitor invocation (thread `false`) steps
    rcases pcF with _ | _ | _ | _ | _ | _ | _ | n
    · -- pc 0: the atomic claim
      cases flag
      · obtain ⟨-, hq, hwF, hwR, hc, ho⟩ := h2 rfl
        subst hq hwF hwR hc ho
        simp [beStep, BeSys.pc, BeSys.setPc, BeSys.setWon, BeInv]
      · have h3b := h3 rfl
        unfold BeInv
        simp only [beStep, BeSys.pc, BeSys.setPc, BeSys.setWon]
        simp_all [BeInv]
    all_goals {
      -- pc 1,2,3,5 need a prior successful claim; pc 4 is unreachable
      -- under the no-failure hypotheses; pc ≥ 6 is a no-op
      first
      | (refine ⟨h1, h2, h3, h4, h5, h6, h7⟩)
      | (exact absurd rfl h6)
      | (cases wonF with
        | false =>
          obtain ⟨hpc, -, -⟩ := h4 rfl
          simp at hpc
        | true =>
          cases wonR with
          | true => exact absurd ⟨rfl, rfl⟩ h1
          | false =>
            cases flag with
            | false => obtain ⟨hpc, -⟩ := h2 rfl; simp at hpc
            | true =>
              obtain ⟨hr, hcalls, howner⟩ := h5 rfl
              have hcalls2 : ∀ b : BeGw, (true, b) ∉ calls :=
                fun b hb => by simpa using hcalls _ hb
              unfold BeInv beStep BeSys.pc BeSys.setPc BeSys.setWon
              cases posExists <;> norm_num [hp, hs] <;>
                first
                | exact ⟨⟨hr, hcalls2, howner⟩, h7⟩
                | exact ⟨⟨hr, hcalls2⟩, h7⟩) }
  · -- PositionReconciler invocation (thread `true`) steps
    rcases pcR with _ | _ | _ | _ | _ | _ | _ | n
    · cases flag
      · obtain ⟨hq, -, hwF, hwR, hc, ho⟩ := h2 rfl
        subst hq hwF hwR hc ho
        simp [beStep, BeSys.pc, BeSys.setPc, BeSys.setWon, BeInv]
      · have h3b := h3 rfl
        unfold BeInv
        simp only [beStep, BeSys.pc, BeSys.setPc, BeSys.setWon]
        simp_all [BeInv]
    all_goals {
      first
      | (refine ⟨h1, h2, h3, h4, h5, h6, h7⟩)
      | (exact absurd rfl h7)
      | (cases wonR with
        | false =>
          obtain ⟨hpc, -, -⟩ := h5 rfl
          simp at hpc
        | true =>
          cases wonF with
          | true => exact absurd ⟨rfl, rfl⟩ h1
          | false =>
            cases flag with
            | false => obtain ⟨-, hpc, -⟩ := h2 rfl; simp at hpc
            | true =>
              obtain ⟨hr, hcalls, howner⟩ := h4 rfl
              have hcalls2 : ∀ b : BeGw, (false, b) ∉ calls :=
                fun b hb => by simpa using hcalls _ hb
              unfold BeInv beStep BeSys.pc BeSys.setPc BeSys.setWon
              cases posExists <;> norm_num [hp, hs] <;>
                first
                | exact ⟨⟨hr, hcalls2, howner⟩, h6⟩
                | exact ⟨⟨hr, hcalls2⟩, h6⟩) }

theorem beInv_run (posExists : Bool) (pFail sFail : Bool → Bool)
    (hp : ∀ t, pFail t = false) (hs : ∀ t, sFail t = false)
    (sched : List Bool) {s : BeSys} (h : BeInv s) :
    BeInv (beRun posExists pFail sFail sched s) := by
  induction sched generalizing s with
  | nil => exact h
  | cons t rest ih =>
    exact ih (beInv_step posExists pFail sFail t (hp t) (hs t) h)

/-- C2.  When the most recent admin command for the identity is
`PAUSE`, the dispatcher tick claims no row, mutates nothing and makes
no gateway call.  (The admin gate itself is modelled from the spec
because `check_controls` is absent from `src/`.) -/
theorem pause_skips_tick (cfg : BotConfig) (bot : String)
    (log : List AdminCommand) (gw : TickGw) (db : List Signal)
    (h : latestCommand bot log = some "PAUSE") :
    dispatchTick cfg bot log gw db = (db, []) := by
  unfold dispatchTick
  rw [if_pos h]

/-- Witness for C2 at a concrete command log. -/
theorem pause_skips_tick_check :
    latestCommand "AITA Hyperliquid" [⟨"AITA Hyperliquid", "PAUSE"⟩] = some "PAUSE" ∧
      dispatchTick baseCfg "AITA Hyperliquid" [⟨"AITA Hyperliquid", "PAUSE"⟩] nullGw [baseRow] =
        ([baseRow], []) :=
  ⟨by decide, pause_skips_tick _ _ _ _ _ (by decide)⟩

/-- C7.  With `n ≥ 1` non-null targets and a total size `S` already
rounded to `d` decimal places, the first `n−1` take-profit orders are
each sized `round(S/n, d)`, the last is sized
`round(S − round(S/n, d)·(n−1), d)`, and the `n` partial sizes sum
exactly to `S`. -/
theorem split_sizes_sum (S : ℚ) (d n : ℕ) (hn : 1 ≤ n)
    (hS : ∃ k : ℤ, S = (k : ℚ) / 10 ^ (d : ℤ)) :
    (∀ idx, idx < n - 1 → tp_share S d n idx = pyRound d (S / n)) ∧
    tp_share S d n (n - 1) =
      pyRound d (S - pyRound d (S / n) * ((n : ℚ) - 1)) ∧
    (split_sizes S d n).sum = S := by
  obtain ⟨m, rfl⟩ : ∃ m, n = m + 1 := ⟨n - 1, by omega⟩
  obtain ⟨kp, hkp⟩ := pyRound_den (d : ℤ) (S / ((m + 1 : ℕ) : ℚ))
  obtain ⟨k0, hk0⟩ := hS
  have h10 : (10 : ℚ) ^ (d : ℤ) ≠ 0 := zpow_ne_zero _ (by norm_num)
  have hlast : tp_share S d (m + 1) m =
      S - pyRound d (S / ((m + 1 : ℕ) : ℚ)) * (m : ℚ) := by
    unfold tp_share
    rw [Nat.add_sub_cancel, if_pos rfl]
    have harg : S - pyRound (d : ℤ) (S / ((m + 1 : ℕ) : ℚ)) * (((m + 1 : ℕ) : ℚ) - 1) =
        S - pyRound (d : ℤ) (S / ((m + 1 : ℕ) : ℚ)) * (m : ℚ) := by
      push_cast
      ring
    rw [harg]
    refine pyRound_eq_self ⟨k0 - kp * m, ?_⟩
    rw [hkp, hk0]
    push_cast
    field_simp
  refine ⟨fun idx hidx => ?_, ?_, ?_⟩
  · unfold tp_share
    rw [if_neg (by omega)]
  · unfold tp_share
    rw [if_pos rfl]
  · unfold split_sizes
    rw [List.range_succ, List.map_append, List.sum_append]
    have hconst : (List.range m).map (tp_share S d (m + 1)) =
        (List.range m).map (fun _ => pyRound (d : ℤ) (S / ((m + 1 : ℕ) : ℚ))) := by
      refine List.map_congr_left (fun idx hidx => ?_)
      have : idx < m := List.mem_range.1 hidx
      unfold tp_share
      rw [if_neg (by omega)]
    rw [hconst, List.map_const', List.length_range, List.sum_replicate,
      nsmul_eq_mul]
    simp only [List.map_cons, List.map_nil, List.sum_cons, List.sum_nil,
      add_zero, hlast]
    ring

/-- Witness for C7: total size 1.0 split across 3 targets at 2 decimal
places sums back to exactly 1.0 (shares 0.33, 0.33, 0.34). -/
theorem split_sizes_sum_check :
    1 ≤ 3 ∧ ((1 : ℚ) = ((100 : ℤ) : ℚ) / 10 ^ ((2 : ℕ) : ℤ)) ∧
      (split_sizes 1 2 3).sum = 1 :=
  ⟨by norm_num, by norm_num,
    (split_sizes_sum 1 2 3 (by norm_num) ⟨100, by norm_num⟩).2.2⟩

/-- Evaluation of `round_px` with `szDecimals = 3` at price 12345.678:
the magnitude is 4, so the significant-figure rule allows
`5 − 1 − 4 = 0` decimals, stricter than the `6 − 3 = 3` decimal cap,
and Python's `round(12345.678, 0)` gives 12346. -/
theorem round_px_eval_12345678 :
    round_px 3 ((12345678 : ℚ) / 1000) = 12346 := by
  have hpos : (0 : ℚ) < 12345678 / 1000 := by norm_num
  have hlog : Int.log 10 |(12345678 : ℚ) / 1000| = 4 := by
    rw [abs_of_pos hpos]
    refine intLog10_eq hpos ?_ ?_
    · rw [show ((4 : ℤ)) = ((4 : ℕ) : ℤ) from rfl, zpow_natCast]
      norm_num
    · rw [show ((4 : ℤ) + 1) = ((5 : ℕ) : ℤ) from rfl, zpow_natCast]
      norm_num
  unfold round_px
  rw [if_neg (by norm_num), hlog]
  norm_num
  unfold pyRound pyRoundInt
  have hfx : ⌊(6172839 : ℚ) / 500⌋ = 12345 := by
    rw [Int.floor_eq_iff]
    norm_num
  have hround : round ((6172839 : ℚ) / 500) = 12346 := by
    rw [round_eq, show (6172839 : ℚ) / 500 + 1 / 2 = 12346178 / 1000 by norm_num]
    rw [Int.floor_eq_iff]
    norm_num
  rw [zpow_zero, mul_one, hfx, if_neg (by norm_num), hround]
  norm_num

/-- C5 counterexample.  For `szDecimals = 3` and price 12345.678 the
claimed result 12300 is wrong: the code rounds to 0 decimal places
(the 5-significant-figure rule binding), giving 12346, not 12300. -/
theorem round_px_ne_12300 :
    round_px 3 ((12345678 : ℚ) / 1000) ≠ 12300 := by
  rw [round_px_eval_12345678]
  norm_num

/-- C5 (amended).  For an instrument with `sizeDecimals = 3`, `round_px`
at 12345.678 keeps at most 5 significant figures and at most
`6 − 3 = 3` decimals, the stricter (smaller) decimal count — here 0,
from the significant-figure rule — winning, and returns exactly
12346. -/
theorem round_px_five_sig_figs_binding :
    round_px 3 ((12345678 : ℚ) / 1000) = 12346 :=
  round_px_eval_12345678

/-- C4.  The 30-day order-id recency guard is applied by
`_process_fill` but NOT by `_check_missed_breakeven`.  At `now` =
day 100, a row created 45 days earlier (day 55) with TP1 order id 777,
status `filled` and breakeven flag unset: a current fill with the
recycled order id 777 is correctly ignored by `_process_fill`'s lookup,
but `_check_missed_breakeven` attributes it to the stale row and
invokes breakeven promotion for it — the fill IS attributed to a row
created 45 days ago, contradicting the claim and the spec's recency
invariant. -/
theorem missed_breakeven_no_recency_guard :
    check_missed_breakeven "AITA Hyperliquid"
        [{ baseRow with order_id_tp1 := some 777, created_at := 55 * 86400 }]
        [{ coin := "ETH", oid := 777, px := 2100, sz := 1,
           time := 100 * 86400, dir := "Close Long", closedPnl := 5 }] = [1] ∧
      matchFillRow "AITA Hyperliquid" 777 (100 * 86400)
        [{ baseRow with order_id_tp1 := some 777, created_at := 55 * 86400 }] =
        none := by
  constructor
  · decide
  · decide

/-- C3 counterexample.  When the conditional claim succeeds but the
position no longer exists on the exchange, `_move_sl_to_breakeven`
returns early WITHOUT rolling back: the breakeven flag stays true, no
breakeven order id is persisted, and no error is recorded — the flag is
left true without a completed promotion, contradicting the claim. -/
theorem move_sl_no_rollback_on_closed_position :
    ((move_sl_to_breakeven ⟨false, none, false⟩ 3 "ETH" baseRow).1.sl_moved_to_be = true ∧
      (move_sl_to_breakeven ⟨false, none, false⟩ 3 "ETH" baseRow).1.be_sl_order_id = none ∧
      (move_sl_to_breakeven ⟨false, none, false⟩ 3 "ETH" baseRow).2 = [] ∧
      (move_sl_to_breakeven ⟨false, none, false⟩ 3 "ETH" baseRow).1.notes =
        ["BE SL in progress"]) := by
  refine ⟨?_, ?_, ?_, ?_⟩ <;> decide

/-- C3 (amended).  After a successful claim, failures that raise —
placing the new stop is rejected, or persisting the new stop id fails —
roll the breakeven flag back to false and record the error in `notes`;
but when the position no longer exists on the exchange the function
returns with the flag left true (no rollback, no error note). -/
theorem move_sl_rollback_on_exception (env : BeEnv) (d : ℕ) (tk : String)
    (row : Signal) (hflag : row.sl_moved_to_be = false)
    (hpos : env.positionExists = true)
    (hfail : (∃ m, check_order_status env.placeRes = .error m) ∨
      env.persistFails = true) :
    (move_sl_to_breakeven env d tk row).1.sl_moved_to_be = false ∧
      ∃ m, ("BE SL failed: " ++ m) ∈ (move_sl_to_breakeven env d tk row).1.notes := by
  unfold move_sl_to_breakeven
  rw [hflag, hpos]
  simp only [Bool.false_eq_true, if_false, Bool.not_true, beRollback]
  rcases hps : row.position_size_actual with - | ps
  · refine ⟨rfl, "unsupported operand type", ?_⟩
    simp
  · rcases hn : countTargets row with - | n
    · exact ⟨rfl, "division by zero", by simp⟩
    · simp only [Nat.succ_ne_zero, if_false]
      rcases hep : row.entry_1 with - | ep
      · exact ⟨rfl, "float() argument must not be None", by simp⟩
      · cases hres : check_order_status env.placeRes with
        | error m => exact ⟨rfl, m, by simp⟩
        | ok u =>
          rcases hfail with ⟨m, hm⟩ | hpf
          · rw [hres] at hm
            cases hm
          · rw [hpf]
            exact ⟨rfl, "database error", by simp⟩

/-- Witness for C3 (amended): a live position whose breakeven stop
placement is rejected by the venue gets rolled back. -/
theorem move_sl_rollback_on_exception_check :
    baseRow.sl_moved_to_be = false ∧
      (⟨true, some ⟨"err", none⟩, false⟩ : BeEnv).positionExists = true ∧
      (∃ m, check_order_status (some ⟨"err", none⟩) = .error m) ∧
      ((move_sl_to_breakeven ⟨true, some ⟨"err", none⟩, false⟩ 3 "ETH"
          baseRow).1.sl_moved_to_be = false ∧
        ∃ m, ("BE SL failed: " ++ m) ∈
          (move_sl_to_breakeven ⟨true, some ⟨"err", none⟩, false⟩ 3 "ETH"
            baseRow).1.notes) :=
  ⟨rfl, rfl, ⟨"API Error", rfl⟩,
    move_sl_rollback_on_exception ⟨true, some ⟨"err", none⟩, false⟩ 3 "ETH"
      baseRow rfl rfl (Or.inl ⟨"API Error", rfl⟩)⟩


/-- C8.  One reconciliation pass closes every ghost row: a `filled`
`entry` row of the identity whose cleaned symbol has no live non-zero
position is set to status `closed`; when `_get_pnl_from_fills` recovers
PnL from a recent closing fill the percent is recorded, otherwise a
"PnL unavailable" note is appended. -/
theorem ghost_rows_closed (bot : String) (db : List Signal)
    (positions : List AssetPos) (fills : List Fill) (r : Signal)
    (hr : r ∈ db) (hbot : r.bot_name = bot) (htype : r.signal_type = "entry")
    (hst : r.status = "filled")
    (hlive : cleanTicker r.symbol ∉ openTickers positions) :
    ∃ r2 ∈ reconcileGhosts bot db positions fills,
      r2.id = r.id ∧ r2.status = "closed" ∧
      (∀ p c cp, get_pnl_from_fills (cleanTicker r.symbol) r.entry_1
          r.position_size_actual fills = some (p, c, cp) →
        r2.pnl_percent_actual = some p) ∧
      (get_pnl_from_fills (cleanTicker r.symbol) r.entry_1
          r.position_size_actual fills = none →
        "Auto-closed by reconciliation (PnL unavailable)" ∈ r2.notes) := by
  refine ⟨ghostHeal bot (openTickers positions) fills r,
    List.mem_map_of_mem _ hr, ?_⟩
  have hg : isGhost bot (openTickers positions) r = true := by
    simp [isGhost, hbot, htype, hst, hlive]
  unfold ghostHeal
  simp only [hg, if_true]
  cases hpn : get_pnl_from_fills (cleanTicker r.symbol) r.entry_1
      r.position_size_actual fills with
  | none =>
    refine ⟨rfl, rfl, ?_, ?_⟩
    · intro p c cp h
      cases h
    · intro h2
      simp
  | some t =>
    obtain ⟨p, c, cp⟩ := t
    refine ⟨rfl, rfl, ?_, ?_⟩
    · intro p2 c2 cp2 h
      injection h with h2
      injection h2 with hp hrest
      rw [hp]
    · intro h
      cases h

/-- Witness for C8: the spec's ghost-position healing scenario — a
`filled` `ETH` row of size 1.0, a gateway reporting no open positions,
no recoverable PnL in fill history; the row is closed with the
"PnL unavailable" note. -/
theorem ghost_rows_closed_check :
    baseRow ∈ [baseRow] ∧
      (cleanTicker baseRow.symbol ∉ openTickers []) ∧
      (∃ r2 ∈ reconcileGhosts "AITA Hyperliquid" [baseRow] [] [],
        r2.id = baseRow.id ∧ r2.status = "closed" ∧
        (∀ p c cp, get_pnl_from_fills (cleanTicker baseRow.symbol)
            baseRow.entry_1 baseRow.position_size_actual [] = some (p, c, cp) →
          r2.pnl_percent_actual = some p) ∧
        (get_pnl_from_fills (cleanTicker baseRow.symbol) baseRow.entry_1
            baseRow.position_size_actual [] = none →
          "Auto-closed by reconciliation (PnL unavailable)" ∈ r2.notes)) :=
  ⟨List.mem_singleton.mpr rfl, by simp [openTickers],
    ghost_rows_closed "AITA Hyperliquid" [baseRow] [] [] baseRow
      (List.mem_singleton.mpr rfl) rfl rfl rfl (by simp [openTickers])⟩

/-- Case analysis for membership in an updated table. -/
theorem updateById_cases {db : List Signal} {i : ℕ} {g : Signal → Signal}
    {r : Signal} (hr : r ∈ updateById db i g) :
    (∃ r0, r0 ∈ db ∧ r0.id = i ∧ r = g r0) ∨ (r ∈ db ∧ r.id ≠ i) := by
  unfold updateById at hr
  obtain ⟨r0, hr0, heq⟩ := List.mem_map.1 hr
  by_cases h0 : r0.id = i
  · left
    exact ⟨r0, hr0, h0, by rw [← heq, if_pos h0]⟩
  · right
    rw [← heq, if_neg h0]
    exact ⟨hr0, h0⟩

/-- C9.  For a closing fill with non-zero realized PnL (and non-zero
size), `_track_position_closure` computes
`pnl = closedPnl / (entryPrice × positionSize) × 100` against the most
recent `filled` `entry` row for the fill's symbol and identity, records
it on that entry row, and writes the same value to the earliest
`executed`/`no_op` `exit` row for the symbol created after the entry
row, when such a row exists. -/
theorem closing_fill_records_pnl (bot : String) (fill : Fill)
    (db : List Signal) (e : Signal) (ep ps : ℚ)
    (hpnl : fill.closedPnl ≠ 0) (hsz : fill.sz ≠ 0)
    (he : mostRecentFilledEntry bot fill.coin db = some e)
    (hep : e.entry_1 = some ep) (hps : e.position_size_actual = some ps)
    (hpos : 0 < ep * ps) :
    (∀ r ∈ track_position_closure bot fill.coin fill db,
      r.id = e.id →
        r.pnl_percent_actual = some (fill.closedPnl / (ep * ps) * 100)) ∧
    (∀ x, earliestExitAfter bot fill.coin e.created_at
        (updateById db e.id
          (recordEntryPnl (fill.closedPnl / (ep * ps) * 100))) = some x →
      ∀ r ∈ track_position_closure bot fill.coin fill db,
        r.id = x.id →
          r.pnl_percent_actual = some (fill.closedPnl / (ep * ps) * 100)) := by
  unfold track_position_closure
  rw [if_neg (by push_neg; exact ⟨hpnl, hsz⟩)]
  simp only [he, hep, hps]
  simp only [if_pos hpos]
  have hdb1 : ∀ r ∈ updateById db e.id
      (recordEntryPnl (fill.closedPnl / (ep * ps) * 100)),
      r.id = e.id →
        r.pnl_percent_actual = some (fill.closedPnl / (ep * ps) * 100) := by
    intro r hr hid
    rcases updateById_cases hr with ⟨r0, -, -, rfl⟩ | ⟨-, hne⟩
    · rfl
    · exact absurd hid hne
  cases hx : earliestExitAfter bot fill.coin e.created_at
      (updateById db e.id
        (recordEntryPnl (fill.closedPnl / (ep * ps) * 100))) with
  | none =>
    refine ⟨fun r hr hid => hdb1 r hr hid, fun x hx2 => ?_⟩
    exact Option.noConfusion hx2
  | some x =>
    constructor
    · intro r hr hid
      rcases updateById_cases hr with ⟨r0, -, -, rfl⟩ | ⟨hmem, -⟩
      · rfl
      · exact hdb1 r hmem hid
    · intro x2 hx2 r hr hid
      have hxx : x = x2 := by
        injection hx2
      rcases updateById_cases hr with ⟨r0, -, -, rfl⟩ | ⟨-, hne⟩
      · rfl
      · rw [← hxx] at hid
        exact absurd hid hne

/-- Witness for C9: a closing `ETH` fill with realized PnL 50 against a
`filled` entry row (entry 2000, size 1), with a later executed exit
row; the PnL percent 50/(2000·1)·100 is recorded on both. -/
theorem closing_fill_records_pnl_check :
    (closeFillFx.closedPnl ≠ 0) ∧ (closeFillFx.sz ≠ 0) ∧
      mostRecentFilledEntry "AITA Hyperliquid" "ETH" [baseRow, exitRowFx] =
        some baseRow ∧
      baseRow.entry_1 = some 2000 ∧
      baseRow.position_size_actual = some 1 ∧
      (0 : ℚ) < 2000 * 1 ∧
      ((∀ r ∈ track_position_closure "AITA Hyperliquid" closeFillFx.coin
          closeFillFx [baseRow, exitRowFx],
        r.id = baseRow.id →
          r.pnl_percent_actual =
            some (closeFillFx.closedPnl / ((2000 : ℚ) * 1) * 100)) ∧
      (∀ x, earliestExitAfter "AITA Hyperliquid" closeFillFx.coin
          baseRow.created_at
          (updateById [baseRow, exitRowFx] baseRow.id
            (recordEntryPnl (closeFillFx.closedPnl / ((2000 : ℚ) * 1) * 100))) =
            some x →
        ∀ r ∈ track_position_closure "AITA Hyperliquid" closeFillFx.coin
            closeFillFx [baseRow, exitRowFx],
          r.id = x.id →
            r.pnl_percent_actual =
              some (closeFillFx.closedPnl / ((2000 : ℚ) * 1) * 100))) :=
  ⟨by norm_num [closeFillFx], by norm_num [closeFillFx], by decide, rfl, rfl,
    by norm_num,
    closing_fill_records_pnl "AITA Hyperliquid" closeFillFx
      [baseRow, exitRowFx] baseRow 2000 1 (by norm_num [closeFillFx])
      (by norm_num [closeFillFx]) (by decide) rfl rfl (by norm_num)⟩

/-- Every gateway call made while processing an exit is a cancel or a
market close, never an order placement. -/
theorem processExit_no_place (gw : TickGw) (t : String) :
    ∀ c ∈ (processExit gw t).2, c.isPlace = false := by
  have hcalls : (processExit gw t).2 = exitCalls gw t := by
    unfold processExit
    cases check_order_status (gw.market_close t) <;> rfl
  rw [hcalls]
  intro c hc
  unfold exitCalls at hc
  simp only [List.mem_append, List.mem_map, List.mem_singleton] at hc
  rcases hc with ⟨o, -, rfl⟩ | rfl <;> rfl

/-- On a tick with a pending exit row, `tickCore` runs the exit branch
for the selected row. -/
theorem tickCore_exit_eq (cfg : BotConfig) (bot : String) (gw : TickGw)
    (db : List Signal) (ex : Signal)
    (hex2 : oldestPendingExit bot db = some ex) :
    tickCore cfg bot gw db =
      (match processExit gw (cleanTicker ex.symbol) with
        | (.executedO, calls) =>
          (updateById db ex.id (fun r => { r with status := "executed" }), calls)
        | (.failedX m, calls) =>
          (updateById db ex.id
            (fun r => { r with status := "failed", notes := [m] }), calls)) := by
  unfold tickCore
  rw [hex2]

/-- C6.  On any dispatch-loop iteration where a `pending` `exit` row
exists for the identity, the oldest such exit row is the one selected
and processed: the tick's gateway calls contain no order placement, and
every row other than the selected exit row — in particular every
`pending` `entry` row — is left untouched. -/
theorem exit_priority (cfg : BotConfig) (bot : String) (gw : TickGw)
    (db : List Signal)
    (hex : ∃ r ∈ db, r.bot_name = bot ∧ r.status = "pending" ∧
      r.signal_type = "exit") :
    ∃ ex, oldestPendingExit bot db = some ex ∧
      ex.bot_name = bot ∧ ex.status = "pending" ∧ ex.signal_type = "exit" ∧
      (∀ r ∈ db, r.bot_name = bot → r.status = "pending" →
        r.signal_type = "exit" → ex.created_at ≤ r.created_at) ∧
      (∀ c ∈ (tickCore cfg bot gw db).2, c.isPlace = false) ∧
      (∀ r ∈ db, r.id ≠ ex.id → r ∈ (tickCore cfg bot gw db).1) := by
  obtain ⟨r0, hr0, hb, hs, ht⟩ := hex
  have hr0f : r0 ∈ db.filter (fun r =>
      r.bot_name == bot && r.status == "pending" && r.signal_type == "exit") :=
    List.mem_filter.2 ⟨hr0, by simp [hb, hs, ht]⟩
  obtain ⟨ex, hex2⟩ : ∃ e, oldestPendingExit bot db = some e := by
    unfold oldestPendingExit
    cases h : (db.filter (fun r =>
        r.bot_name == bot && r.status == "pending" &&
          r.signal_type == "exit")).argmin Signal.created_at with
    | none =>
      rw [List.argmin_eq_none] at h
      rw [h] at hr0f
      cases hr0f
    | some e => exact ⟨e, rfl⟩
  have hargm : ex ∈ (db.filter (fun r =>
      r.bot_name == bot && r.status == "pending" &&
        r.signal_type == "exit")).argmin Signal.created_at := hex2
  have hmem := List.argmin_mem hargm
  obtain ⟨hmemdb, hprops⟩ := List.mem_filter.1 hmem
  simp only [Bool.and_eq_true, beq_iff_eq] at hprops
  obtain ⟨⟨hpb, hps2⟩, hpt⟩ := hprops
  have hTC := tickCore_exit_eq cfg bot gw db ex hex2
  refine ⟨ex, hex2, hpb, hps2, hpt, ?_, ?_, ?_⟩
  · intro r hr hb2 hs2 ht2
    exact List.le_of_mem_argmin
      (List.mem_filter.2 ⟨hr, by simp [hb2, hs2, ht2]⟩) hargm
  · rw [hTC]
    have hnp := processExit_no_place gw (cleanTicker ex.symbol)
    set pr := processExit gw (cleanTicker ex.symbol) with hpr
    obtain ⟨o, calls⟩ := pr
    cases o <;> exact hnp
  · intro r hr hne
    rw [hTC]
    set pr := processExit gw (cleanTicker ex.symbol) with hpr
    obtain ⟨o, calls⟩ := pr
    cases o <;> exact updateById_mem hr _ _ hne

/-- Witness for C6 at a one-row table holding a pending exit signal. -/
theorem exit_priority_check :
    (∃ r ∈ [pendingExitFx], r.bot_name = "AITA Hyperliquid" ∧
      r.status = "pending" ∧ r.signal_type = "exit") ∧
      (∃ ex, oldestPendingExit "AITA Hyperliquid" [pendingExitFx] = some ex ∧
        ex.bot_name = "AITA Hyperliquid" ∧ ex.status = "pending" ∧
        ex.signal_type = "exit" ∧
        (∀ r ∈ [pendingExitFx], r.bot_name = "AITA Hyperliquid" →
          r.status = "pending" → r.signal_type = "exit" →
            ex.created_at ≤ r.created_at) ∧
        (∀ c ∈ (tickCore baseCfg "AITA Hyperliquid" nullGw [pendingExitFx]).2,
          c.isPlace = false) ∧
        (∀ r ∈ [pendingExitFx], r.id ≠ ex.id →
          r ∈ (tickCore baseCfg "AITA Hyperliquid" nullGw [pendingExitFx]).1)) :=
  ⟨⟨pendingExitFx, List.mem_singleton.mpr rfl, rfl, rfl, rfl⟩,
    exit_priority baseCfg "AITA Hyperliquid" nullGw [pendingExitFx]
      ⟨pendingExitFx, List.mem_singleton.mpr rfl, rfl, rfl, rfl⟩⟩

/-- With a gateway returning `None` for every placement, the TP loop
records only `none` order ids. -/
theorem placeTps_none (gw : TickGw) (hgw : ∀ req, gw.place req = none)
    (ticker : String) (is_buy : Bool) (d : ℕ) (size : ℚ) (n : ℕ) :
    ∀ (l : List (ℕ × ℚ)) (idx : ℕ) (p : ℕ × Option ℕ),
      p ∈ (placeTps gw ticker is_buy d size n l idx).1 → p.2 = none := by
  intro l
  induction l with
  | nil =>
    intro idx p hp
    cases hp
  | cons hd rest ih =>
    intro idx p hp
    obtain ⟨num, tp⟩ := hd
    unfold placeTps at hp
    by_cases hsh : tp_share size d n idx ≤ 0
    · rw [if_pos hsh] at hp
      exact ih _ p hp
    · rw [if_neg hsh] at hp
      rw [hgw] at hp
      rcases List.mem_cons.1 hp with rfl | hp2
      · rfl
      · exact ih _ p hp2

/-- A dictionary built from only-`none` values answers `none`
everywhere. -/
theorem tpFold_none : ∀ (l : List (ℕ × Option ℕ)) (acc : ℕ → Option ℕ),
    (∀ p ∈ l, p.2 = none) → (∀ k, acc k = none) →
    ∀ k, (l.foldl (fun acc p => fun k => if k = p.1 then p.2 else acc k) acc) k =
      none := by
  intro l
  induction l with
  | nil =>
    intro acc h hacc k
    exact hacc k
  | cons p rest ih =>
    intro acc h hacc k
    simp only [List.foldl_cons]
    refine ih _ (fun q hq => h q (List.mem_cons_of_mem _ hq)) ?_ k
    intro k2
    by_cases hk : k2 = p.1
    · rw [if_pos hk]
      exact h p (List.mem_cons_self _ _)
    · rw [if_neg hk]
      exact hacc k2

/-- C10.  A `None` placement receipt is success: `_check_order_status`
returns normally and `_extract_order_id` yields `None`; so an entry
signal that passes validation and whose every placement returns `None`
is still marked `filled`, with the realized size persisted and every
persisted order identifier null. -/
theorem none_receipts_entry_filled (cfg : BotConfig) (gw : TickGw)
    (row : Signal) (e : ℚ) (hgw : ∀ req, gw.place req = none)
    (hentry : row.entry_1 = some e) (he0 : ¬(e = 0))
    (hcount : posCount gw < cfg.max_concurrent_positions)
    (hdiff : ¬(|e - stopRaw cfg row e| = 0))
    (hsize : 0 < sizeRounded cfg gw row e) :
    check_order_status none = .ok () ∧ extract_order_id none = none ∧
      ∃ tp calls,
        processEntry cfg gw row =
          (.filledO (sizeRounded cfg gw row e) none none tp, calls) ∧
        ∀ k, tp k = none := by
  refine ⟨rfl, rfl, ?_⟩
  unfold processEntry
  simp only [hentry]
  rw [if_neg he0, if_neg (Nat.not_le.2 hcount), if_neg hdiff,
    if_neg (not_le.2 hsize)]
  simp only [hgw]
  refine ⟨_, _, rfl, ?_⟩
  exact tpFold_none _ _
    (placeTps_none gw hgw _ _ _ _ _ _ 0) (fun k => rfl)

/-- Witness for C10: a valid long entry (entry 2000, stop 1900,
confidence 1, one target) against an all-`None` gateway; the computed
size is 1000·1%/100 = 0.1. -/
theorem none_receipts_entry_filled_check :
    ((∀ req, nullGw.place req = none) ∧
      pendingEntryFx.entry_1 = some 2000 ∧
      ¬((2000 : ℚ) = 0) ∧
      posCount nullGw < baseCfg.max_concurrent_positions ∧
      ¬(|(2000 : ℚ) - stopRaw baseCfg pendingEntryFx 2000| = 0) ∧
      0 < sizeRounded baseCfg nullGw pendingEntryFx 2000) ∧
      (check_order_status none = .ok () ∧ extract_order_id none = none ∧
        ∃ tp calls,
          processEntry baseCfg nullGw pendingEntryFx =
            (.filledO (sizeRounded baseCfg nullGw pendingEntryFx 2000)
              none none tp, calls) ∧
          ∀ k, tp k = none) := by
  have hstop : stopRaw baseCfg pendingEntryFx 2000 = 1900 := by
    norm_num [stopRaw, pendingEntryFx, baseRow]
  have hd100 : |(2000 : ℚ) - 1900| = 100 := by
    rw [show (2000 : ℚ) - 1900 = 100 by norm_num]
    exact abs_of_pos (by norm_num)
  have hcap : cappedSize baseCfg nullGw pendingEntryFx 2000 = 1 / 10 := by
    unfold cappedSize rawSize riskAmt
    rw [hstop, hd100]
    norm_num [pendingEntryFx, baseRow, baseCfg, nullGw]
  have hsz : sizeRounded baseCfg nullGw pendingEntryFx 2000 = 1 / 10 := by
    unfold sizeRounded
    rw [hcap, show baseCfg.szDec (cleanTicker pendingEntryFx.symbol) = 3
      from rfl]
    rw [pyRound_eq_self ⟨100, by norm_num⟩]
  have hdiff : ¬(|(2000 : ℚ) - stopRaw baseCfg pendingEntryFx 2000| = 0) := by
    rw [hstop]
    norm_num
  have hsize : 0 < sizeRounded baseCfg nullGw pendingEntryFx 2000 := by
    rw [hsz]
    norm_num
  exact ⟨⟨fun req => rfl, rfl, by norm_num, by decide, hdiff, hsize⟩,
    none_receipts_entry_filled baseCfg nullGw pendingEntryFx 2000
      (fun req => rfl) rfl (by norm_num) (by decide) hdiff hsize⟩

/-- C1 counterexample.  The claim fails on the code because the
except-handler rollback (source lines 783–795) reopens the conditional
claim.  Concrete interleaving: the FillMonitor invocation claims,
cancels the old stop, places the new stop, its receipt raises, and it
rolls the flag back — all before the PositionReconciler invocation
issues its conditional update; that update then also affects one row,
so the Reconciler invocation also proceeds past the claim and also
makes gateway calls.  Both invocations proceed past the claim and both
place orders, refuting "in every interleaving exactly one invocation
proceeds past the conditional claim update and is the only one to make
gateway calls". -/
theorem breakeven_reclaimed_after_rollback :
    (beRun true (fun t => !t) (fun _ => false)
      [false, false, false, false, false, true, true, true, true, true]
      beInit).wonF = true ∧
    (beRun true (fun t => !t) (fun _ => false)
      [false, false, false, false, false, true, true, true, true, true]
      beInit).wonR = true ∧
    (false, BeGw.placeNew) ∈ (beRun true (fun t => !t) (fun _ => false)
      [false, false, false, false, false, true, true, true, true, true]
      beInit).calls ∧
    (true, BeGw.placeNew) ∈ (beRun true (fun t => !t) (fun _ => false)
      [false, false, false, false, false, true, true, true, true, true]
      beInit).calls := by
  refine ⟨?_, ?_, ?_, ?_⟩ <;> decide

/-- C1 (amended).  In every interleaving in which neither invocation's
promotion fails after its claim (no placement rejection and no persist
failure, so the rollback never runs and the claim is never reopened),
once both invocations have returned exactly one of them won the
conditional claim; the other lost it, returned immediately, made no
gateway call and set no breakeven order id — all gateway calls and any
persisted breakeven order id belong to the single winner.  (When a
promotion does fail, the rollback reopens the claim and the other
invocation may claim and act as well, as the counterexample shows.) -/
theorem breakeven_exactly_once (posExists : Bool) (pFail sFail : Bool → Bool)
    (hp : ∀ t, pFail t = false) (hs : ∀ t, sFail t = false)
    (sched : List Bool)
    (hF : (beRun posExists pFail sFail sched beInit).pcF = 6)
    (_hR : (beRun posExists pFail sFail sched beInit).pcR = 6) :
    ∃ w : Bool, (beRun posExists pFail sFail sched beInit).won w = true ∧
      (beRun posExists pFail sFail sched beInit).won (!w) = false ∧
      (∀ c ∈ (beRun posExists pFail sFail sched beInit).calls, c.1 = w) ∧
      (∀ t, (beRun posExists pFail sFail sched beInit).beOwner = some t →
        t = w) := by
  have hinv := beInv_run posExists pFail sFail hp hs sched beInv_init
  obtain ⟨h1, h2, h3, h4, h5, -, -⟩ := hinv
  cases hflag : (beRun posExists pFail sFail sched beInit).flag
  · obtain ⟨hpc, -, -, -, -, -⟩ := h2 hflag
    rw [hF] at hpc
    omega
  · rcases h3 hflag with hw | hw
    · have hwr : (beRun posExists pFail sFail sched beInit).wonR = false := by
        cases hwrc : (beRun posExists pFail sFail sched beInit).wonR
        · rfl
        · exact absurd ⟨hw, hwrc⟩ h1
      obtain ⟨-, hcalls, howner⟩ := h5 hwr
      refine ⟨false, hw, hwr, hcalls, ?_⟩
      intro t ht
      cases t
      · rfl
      · exact absurd ht howner
    · have hwf : (beRun posExists pFail sFail sched beInit).wonF = false := by
        cases hwfc : (beRun posExists pFail sFail sched beInit).wonF
        · rfl
        · exact absurd ⟨hwfc, hw⟩ h1
      obtain ⟨-, hcalls, howner⟩ := h4 hwf
      refine ⟨true, hw, hwf, hcalls, ?_⟩
      intro t ht
      cases t
      · exact absurd ht howner
      · rfl

/-- Witness for C1 (amended): a failure-free run — the FillMonitor
invocation performs its five steps, then the PositionReconciler
invocation attempts the claim and returns immediately. -/
theorem breakeven_exactly_once_check :
    (∀ t : Bool, (fun _ : Bool => false) t = false) ∧
      (beRun true (fun _ => false) (fun _ => false)
        [false, false, false, false, false, true] beInit).pcF = 6 ∧
      (beRun true (fun _ => false) (fun _ => false)
        [false, false, false, false, false, true] beInit).pcR = 6 ∧
      (∃ w : Bool,
        (beRun true (fun _ => false) (fun _ => false)
          [false, false, false, false, false, true] beInit).won w = true ∧
        (beRun true (fun _ => false) (fun _ => false)
          [false, false, false, false, false, true] beInit).won (!w) =
          false ∧
        (∀ c ∈ (beRun true (fun _ => false) (fun _ => false)
            [false, false, false, false, false, true] beInit).calls,
          c.1 = w) ∧
        (∀ t, (beRun true (fun _ => false) (fun _ => false)
            [false, false, false, false, false, true] beInit).beOwner =
            some t → t = w)) :=
  ⟨fun t => rfl, by decide, by decide,
    breakeven_exactly_once true (fun _ => false) (fun _ => false)
      (fun t => rfl) (fun t => rfl)
      [false, false, false, false, false, true] (by decide) (by decide)⟩

end Fleet
